import Mathlib

/-!
Shallow embedding of the two Python source files of the `nlp` repository that
the verified claims concern:

* `src/nlp/commands/dummy_data.py` — the `slurp` line trimmer, the
  `DummyDataCommand` constructor, the file-touch recorder `get_files`, the
  split-discovery routine `get_expected_files` and the file-matching loop of
  `auto_zip`;
* `datasets/iwslt2017.py` — the `_generate_examples` line-pair extractor.

Python strings are embedded as `List Char`; Python `str.split(sep)` with a
one-character separator as `splitOnChar`; `str.strip()` as `pyStrip`;
`str.startswith` as `startsWith`.  Code that can raise is embedded with
`Except`, a raised exception becoming an `.error` value.  Files are embedded
as the list of their lines.
-/

/-- Embed a Lean string literal as the `List Char` representation of a Python
string. -/
def str (s : String) : List Char := s.toList

/-- Python `s.strip()`: remove leading and trailing whitespace. -/
def pyStrip (s : List Char) : List Char :=
  ((s.dropWhile Char.isWhitespace).reverse.dropWhile Char.isWhitespace).reverse

/-- Python `s.startswith(p)`: `startsWith p s` is true when `p` is a prefix of
`s`. -/
def startsWith : List Char → List Char → Bool
  | [], _ => true
  | _ :: _, [] => false
  | p :: ps, c :: cs => p == c && startsWith ps cs

/-- Python `s.split(sep)` for a one-character separator `sep`: the maximal
chunks between occurrences of `sep`, with empty chunks kept, and `[s]` when
`sep` does not occur (in particular the result is never empty). -/
def splitOnChar (sep : Char) : List Char → List (List Char)
  | [] => [[]]
  | c :: cs =>
    if c == sep then [] :: splitOnChar sep cs
    else
      match splitOnChar sep cs with
      | [] => [[c]]
      | h :: t => (c :: h) :: t

/-- Loop body of `slurp` (dummy_data.py lines 26-29), Python's
`for i, line in enumerate(f): if i <= n_first or i >= total_lines - n_last`.
`cutoff` stands for `total_lines - n_last`; in Python that subtraction can go
negative, making `i >= cutoff` true for every `i`, exactly as with truncated
`Nat` subtraction, since indices are nonnegative. -/
def slurpGo {α : Type} (n_first cutoff : Nat) : Nat → List α → List α
  | _, [] => []
  | i, line :: rest =>
    if i ≤ n_first ∨ cutoff ≤ i then line :: slurpGo n_first cutoff (i + 1) rest
    else slurpGo n_first cutoff (i + 1) rest

/-- dummy_data.py `slurp` (lines 19-30): count the lines of the file, then
keep line `i` iff `i <= n_first or i >= total_lines - n_last`.  The file is
embedded as the list of its lines. -/
def slurp {α : Type} (lines : List α) (n_first n_last : Nat) : List α :=
  slurpGo n_first (lines.length - n_last) 0 lines

/-- Possible exception of iwslt2017.py `_generate_examples`: the `IndexError`
raised by `split(">")[1]` on a segment line with no `>`. -/
inductive ExtractErr
  | indexError
  deriving DecidableEq

/-- Loop body of iwslt2017.py `_generate_examples` (lines 165-181) on one
aligned line pair: strip both lines; when the stripped source line starts with
`<` it is either a `<seg` line — take `split(">")[1]` (an `IndexError` when the
line has no `>`) then `split("<")[0]`, on the source and then on the target
line, and strip the results — or a structural tag line, and the pair is
skipped (`none`). -/
def processPair (source_row target_row : List Char) :
    Except ExtractErr (Option (List Char × List Char)) :=
  let s := pyStrip source_row
  let t := pyStrip target_row
  if startsWith (str "<") s then
    if startsWith (str "<seg") s then
      match (splitOnChar '>' s)[1]? with
      | none => Except.error ExtractErr.indexError
      | some part1 =>
        let s2 := (splitOnChar '<' part1).headD []
        match (splitOnChar '>' t)[1]? with
        | none => Except.error ExtractErr.indexError
        | some part1t =>
          let t2 := (splitOnChar '<' part1t).headD []
          Except.ok (some (pyStrip s2, pyStrip t2))
    else Except.ok none
  else Except.ok (some (s, t))

/-- Driving loop of `_generate_examples`: process the aligned pairs in order,
yielding `(id, record)` with `id` incremented only when a record is emitted;
a skipped pair consumes no id; a raised exception aborts the generator. -/
def genExamplesGo : Nat → List (List Char × List Char) →
    Except ExtractErr (List (Nat × (List Char × List Char)))
  | _, [] => Except.ok []
  | id_, (s, t) :: rest =>
    match processPair s t with
    | Except.error e => Except.error e
    | Except.ok none => genExamplesGo id_ rest
    | Except.ok (some r) =>
      match genExamplesGo (id_ + 1) rest with
      | Except.error e => Except.error e
      | Except.ok l => Except.ok ((id_, r) :: l)

/-- iwslt2017.py `_generate_examples` (lines 160-187): zip the source and
target files line by line (Python's `zip(sf, tf)` stops at the shorter file)
and drive the loop with `id_ = 0`. -/
def generate_examples (source_file target_file : List (List Char)) :
    Except ExtractErr (List (Nat × (List Char × List Char))) :=
  genExamplesGo 0 (source_file.zip target_file)

/-- Spec wording for C7, kept for comparison with the code's extraction: the
text of a segment line lying strictly between the first `>` and the following
`<`, stripped of surrounding whitespace. -/
def segTextSpec (s : List Char) : List Char :=
  pyStrip (((s.dropWhile (fun x => x != '>')).drop 1).takeWhile (fun x => x != '<'))

/-- The two states of the process-wide file-open primitive `builtins.open`:
still the original interpreter primitive, or replaced by the recording
`monkey_patch_open` closure of `get_files`. -/
inductive OpenFn
  | original
  | monkeyPatched
  deriving DecidableEq

/-- The mutable `builtins` fields that `get_files` manipulates:
`openPrim` models `builtins.open` and `savedOpen` models the save slot
`builtins._open`. -/
structure Builtins where
  openPrim : OpenFn
  savedOpen : OpenFn
  deriving DecidableEq

/-- Python exceptions relevant to the dummy-data command. `nameError` stands
for the `UnboundLocalError` (a `NameError`) raised on reading a local variable
that was never assigned. -/
inductive PyExc
  | fileNotFound
  | nameError
  | other
  deriving DecidableEq

/-- A split generator as `get_files` and `get_expected_files` see it: only its
`name` is inspected (`split.name`); its `gen_kwargs` are not modelled — the
files a split's example generator opens are given by the `Builder` directly. -/
structure SplitGenerator where
  name : List Char
  deriving DecidableEq

/-- A dataset builder driven through a fixed download manager, treated as an
opaque external collaborator: the outcome of `_split_generators(dl_manager)`
and, for each split, of exhausting `_generate_examples(**split.gen_kwargs)`.
Each outcome carries the list of filenames passed to `open` during the call
(what the monkey patch records) and either normal termination or a raised
exception. -/
structure Builder where
  split_generators : List (List Char) × Except PyExc (List SplitGenerator)
  generate_examples : SplitGenerator → List (List Char) × Except PyExc Unit

/-- The loop of `get_files` over the splits (dummy_data.py lines 121-125):
drive every split's example generator to exhaustion, accumulating the
filenames opened; a raised exception aborts the loop and propagates. -/
def driveSplits (b : Builder) : List SplitGenerator → List (List Char) × Except PyExc Unit
  | [] => ([], Except.ok ())
  | s :: rest =>
    match b.generate_examples s with
    | (fs, Except.error e) => (fs, Except.error e)
    | (fs, Except.ok ()) =>
      match driveSplits b rest with
      | (fs2, r) => (fs ++ fs2, r)

/-- dummy_data.py `get_files` (lines 105-128): save `builtins.open` into
`builtins._open`, install the recording monkey patch, run
`_split_generators`, drive every example generator to exhaustion, then
restore `builtins.open` from `builtins._open`.  The restore on line 127 is
only reached on normal termination: a raised exception propagates with
`builtins.open` still monkey-patched.  The `mock` flag only changes which
handle the patch returns (a fresh temporary file instead of the real one),
not the recorded filenames, so it is not observable in this model. -/
def get_files (b : Builder) (mock : Bool) (st : Builtins) :
    Except PyExc (List (List Char)) × Builtins :=
  let st1 : Builtins := ⟨OpenFn.monkeyPatched, st.openPrim⟩
  match b.split_generators with
  | (_, Except.error e) => (Except.error e, st1)
  | (fs, Except.ok splits) =>
    match driveSplits b splits with
    | (_, Except.error e) => (Except.error e, st1)
    | (fs2, Except.ok ()) => (Except.ok (fs ++ fs2), ⟨st1.savedOpen, st1.savedOpen⟩)

/-- dummy_data.py `get_expected_files` (lines 175-247), reduced to its
observable outcome: the split names and the expected files to create, or a
raised exception.  The `try`/`except FileNotFoundError` around
`generator_splits = dataset_builder._split_generators(mock_dl_manager)`
prints guidance but leaves the local variable `generator_splits` unassigned,
so the `for split in generator_splits` loop on line 194 raises
`UnboundLocalError`, modelled as `PyExc.nameError`.  Folder creation and the
printed instruction text are not modelled. -/
def get_expected_files (b : Builder) (st : Builtins) :
    Except PyExc (List (List Char) × List (List Char)) × Builtins :=
  match b.split_generators with
  | (_, Except.error PyExc.fileNotFound) => (Except.error PyExc.nameError, st)
  | (_, Except.error e) => (Except.error e, st)
  | (_, Except.ok splits) =>
    let split_names := splits.map SplitGenerator.name
    match get_files b true st with
    | (Except.error e, st2) => (Except.error e, st2)
    | (Except.ok files_to_create, st2) =>
      (Except.ok (split_names, files_to_create), st2)

/-- A dataset builder whose `_split_generators` raises `FileNotFoundError`
(it opens files during split generation, as the guidance message of
`get_expected_files` warns against). -/
def fnfBuilder : Builder :=
  ⟨([], Except.error PyExc.fileNotFound), fun _ => ([], Except.ok ())⟩

/-- A dataset builder whose split generation succeeds but whose example
generator raises after opening one file. -/
def genErrBuilder : Builder :=
  ⟨([], Except.ok [⟨str "train"⟩]), fun _ => ([str "data.txt"], Except.error PyExc.other)⟩

/-- Python `os.path.basename` for `/`-separated paths: everything after the
last `/`. -/
def basename (p : List Char) : List Char := (splitOnChar '/' p).getLastD []

/-- The message of the exception raised by `auto_zip` (dummy_data.py line 142)
when an expected file has no basename match among the real files, typo
included. -/
def errMsg (file_to_create : List Char) : List Char :=
  str "We could not find the file " ++ file_to_create ++
    str " in the real downladed files"

/-- dummy_data.py `auto_zip` lines 136-140: the first real file whose
basename equals the expected file's basename (`[... ][0]`, `None` standing
for the caught `IndexError`). -/
def findRealFile (real_files : List (List Char)) (file_to_create : List Char) :
    Option (List Char) :=
  (real_files.filter (fun filename =>
    decide (basename filename = basename file_to_create))).head?

/-- The file-matching loop of dummy_data.py `auto_zip` (lines 134-142): for
each expected file in order, locate the first real file with the same
basename, raising an `Exception` naming the expected file when there is none;
the result collects each expected file with its matched real file (which
`auto_zip` then slurps and writes).  The slurping, writing and zipping side
effects are outside this model. -/
def auto_zip_match (real_files : List (List Char)) :
    List (List Char) → Except (List Char) (List (List Char × List Char))
  | [] => Except.ok []
  | f :: rest =>
    match findRealFile real_files f with
    | none => Except.error (errMsg f)
    | some r =>
      match auto_zip_match real_files rest with
      | Except.error e => Except.error e
      | Except.ok l => Except.ok ((f, r) :: l)

/-- Outcome of the `DummyDataCommand` constructor: an `IndexError` from
`path_to_dataset.split("/")[-2]`, or an `AssertionError` from the two flag
checks, or the constructed command. -/
inductive InitError
  | indexError
  | assertionError
  deriving DecidableEq

/-- The attributes set by `DummyDataCommand.__init__` (dummy_data.py lines
64-77); field names mirror the `self._*` attributes without the leading
underscore. -/
structure DummyDataCommand where
  path_to_dataset : List Char
  requires_manual : Bool
  dataset_name : List Char
  auto_zip : Bool
  n_first : Nat
  n_last : Nat
  deriving DecidableEq

/-- dummy_data.py `DummyDataCommand.__init__` (lines 64-77), in source order:
derive `_dataset_name = path_to_dataset.split("/")[-2]` — a Python negative
index that raises `IndexError` unless the split has at least two components —
and only then run the two `assert` validations of the `auto_zip`/`n_first`/
`n_last` flags (Python's `n_first or n_last` is truthiness, i.e. nonzero). -/
def DummyDataCommand.init (path_to_dataset : List Char) (requires_manual auto_zip : Bool)
    (n_first n_last : Nat) : Except InitError DummyDataCommand :=
  let parts := splitOnChar '/' path_to_dataset
  if 2 ≤ parts.length then
    let dataset_name := parts.getD (parts.length - 2) []
    if auto_zip then
      if n_first ≠ 0 ∨ n_last ≠ 0 then
        Except.ok ⟨path_to_dataset, requires_manual, dataset_name, auto_zip, n_first, n_last⟩
      else Except.error InitError.assertionError
    else
      if n_first = 0 ∧ n_last = 0 then
        Except.ok ⟨path_to_dataset, requires_manual, dataset_name, auto_zip, n_first, n_last⟩
      else Except.error InitError.assertionError
  else Except.error InitError.indexError

theorem slurpGo_eq {α : Type} (nf cutoff : Nat) (h : nf + 1 ≤ cutoff) :
    ∀ (t : List α) (k : Nat),
      slurpGo nf cutoff k t = t.take (nf + 1 - k) ++ t.drop (cutoff - k) := by
  intro t
  induction t with
  | nil => intro k; simp [slurpGo]
  | cons a t ih =>
    intro k
    by_cases h1 : k ≤ nf
    · rw [show nf + 1 - k = (nf - k) + 1 from by omega]
      rw [show cutoff - k = (cutoff - (k + 1)) + 1 from by omega]
      simp only [slurpGo, if_pos (Or.inl h1), List.take_succ_cons, List.drop_succ_cons]
      rw [ih (k + 1), show nf + 1 - (k + 1) = nf - k from by omega]
      simp
    · by_cases h2 : cutoff ≤ k
      · simp only [slurpGo, if_pos (Or.inr h2)]
        rw [ih (k + 1)]
        rw [show nf + 1 - (k + 1) = 0 from by omega]
        rw [show nf + 1 - k = 0 from by omega]
        rw [show cutoff - k = 0 from by omega, show cutoff - (k + 1) = 0 from by omega]
        simp
      · simp only [slurpGo, if_neg (by omega : ¬(k ≤ nf ∨ cutoff ≤ k))]
        rw [ih (k + 1)]
        rw [show nf + 1 - (k + 1) = 0 from by omega]
        rw [show nf + 1 - k = 0 from by omega]
        rw [show cutoff - k = (cutoff - (k + 1)) + 1 from by omega]
        simp [List.drop_succ_cons]

theorem slurpGo_no_tail {α : Type} (nf cutoff : Nat) :
    ∀ (t : List α) (k : Nat), k + t.length ≤ cutoff →
      slurpGo nf cutoff k t = t.take (nf + 1 - k) := by
  intro t
  induction t with
  | nil => intro k _; simp [slurpGo]
  | cons a t ih =>
    intro k hk
    have hk' : k + 1 + t.length ≤ cutoff := by
      simp only [List.length_cons] at hk; omega
    by_cases h1 : k ≤ nf
    · rw [show nf + 1 - k = (nf - k) + 1 from by omega]
      simp only [slurpGo, if_pos (Or.inl h1), List.take_succ_cons]
      rw [ih (k + 1) hk', show nf + 1 - (k + 1) = nf - k from by omega]
    · have h2 : ¬ cutoff ≤ k := by omega
      simp only [slurpGo, if_neg (by omega : ¬(k ≤ nf ∨ cutoff ≤ k))]
      rw [ih (k + 1) hk']
      rw [show nf + 1 - (k + 1) = 0 from by omega]
      rw [show nf + 1 - k = 0 from by omega]
      simp

/-- C3 counterexample: on a four-line file with `n_first = 1`, `n_last = 1`,
`slurp` does not keep "exactly the first 1 and last 1 lines" — it keeps the
first two lines and the last line, because the head condition is the inclusive
`i <= n_first`. -/
theorem slurp_not_first_n_counterexample :
    slurp [str "l0", str "l1", str "l2", str "l3"] 1 1 ≠
      [str "l0", str "l1", str "l2", str "l3"].take 1 ++
        [str "l0", str "l1", str "l2", str "l3"].drop 3 ∧
    slurp [str "l0", str "l1", str "l2", str "l3"] 1 1 =
      [str "l0", str "l1", str "l3"] := by
  constructor
  · decide
  · decide

/-- C3 (amended): for every file and head count `n_first` and tail count
`n_last` whose regions fit in the file, `slurp` retains exactly the lines with
index `i ≤ n_first` or `i ≥ total - n_last`: the first `n_first + 1` lines
followed by the last `n_last` lines. -/
theorem slurp_keeps_first_succ_n_and_last_m {α : Type} (l : List α) (nf nl : Nat)
    (h : nf + 1 + nl ≤ l.length) :
    slurp l nf nl = l.take (nf + 1) ++ l.drop (l.length - nl) := by
  have h2 := slurpGo_eq nf (l.length - nl) (by omega) l 0
  simpa [slurp] using h2

/-- Witness for the amended C3 at a concrete input. -/
theorem slurp_keeps_first_succ_n_and_last_m_witness :
    slurp ([10, 20, 30] : List Nat) 0 1 =
      ([10, 20, 30] : List Nat).take 1 ++ ([10, 20, 30] : List Nat).drop 2 :=
  slurp_keeps_first_succ_n_and_last_m [10, 20, 30] 0 1 (by decide)

/-- C5: on a 10-line file with `n_first = 2` and `n_last = 1`, `slurp` retains
exactly the lines at indices 0, 1, 2 and 9: index `i` is kept iff
`i ≤ n_first` or `i ≥ total - n_last`. -/
theorem slurp_ten_lines_two_first_one_last {α : Type} (a b c d e f g h i j : α) :
    slurp [a, b, c, d, e, f, g, h, i, j] 2 1 = [a, b, c, j] := rfl

/-- C9: the head and tail bounds of `slurp` are asymmetric: the first line is
always kept because the head condition `i ≤ n_first` admits index 0 even when
`n_first = 0`; `n_last = 0` keeps no tail lines, so the output is exactly the
first `n_first + 1` lines; and when both regions fit, the output has
`n_first + 1 + n_last` lines. -/
theorem slurp_head_tail_asymmetry {α : Type} (a : α) (t l : List α) (nf nl : Nat) :
    (∃ rest, slurp (a :: t) nf nl = a :: rest) ∧
    slurp l nf 0 = l.take (nf + 1) ∧
    (nf + 1 + nl ≤ l.length → (slurp l nf nl).length = nf + 1 + nl) := by
  refine ⟨⟨slurpGo nf ((a :: t).length - nl) 1 t, ?_⟩, ?_, ?_⟩
  · simp [slurp, slurpGo]
  · have h2 := slurpGo_no_tail nf l.length l 0 (by omega)
    simpa [slurp] using h2
  · intro h
    have h2 := slurpGo_eq nf (l.length - nl) (by omega) l 0
    simp only [slurp, Nat.sub_zero] at h2 ⊢
    rw [h2]
    rw [List.length_append, List.length_take, List.length_drop]
    omega

/-- Witness for C9 at a concrete input. -/
theorem slurp_head_tail_asymmetry_witness :
    (∃ rest, slurp ([10, 20, 30] : List Nat) 0 1 = 10 :: rest) ∧
    slurp ([10, 20, 30] : List Nat) 0 0 = ([10, 20, 30] : List Nat).take 1 ∧
    (slurp ([10, 20, 30] : List Nat) 0 1).length = 0 + 1 + 1 := by
  have h := slurp_head_tail_asymmetry (10 : Nat) [20, 30] [10, 20, 30] 0 1
  exact ⟨h.1, h.2.1, h.2.2 (by decide)⟩

theorem splitOnChar_ne_nil (c : Char) (s : List Char) : splitOnChar c s ≠ [] := by
  cases s with
  | nil => simp [splitOnChar]
  | cons a t =>
    by_cases h : (a == c) = true
    · simp [splitOnChar, h]
    · simp only [splitOnChar, h]
      cases hr : splitOnChar c t with
      | nil => simp [hr]
      | cons x xs => simp [hr]

theorem splitOnChar_headD (c : Char) (s : List Char) :
    (splitOnChar c s).headD [] = s.takeWhile (fun x => x != c) := by
  induction s with
  | nil => simp [splitOnChar]
  | cons a t ih =>
    by_cases h : (a == c) = true
    · simp [splitOnChar, h, List.takeWhile_cons, bne]
    · rw [Bool.not_eq_true] at h
      cases hr : splitOnChar c t with
      | nil => exact absurd hr (splitOnChar_ne_nil c t)
      | cons x xs =>
        have hx : x = t.takeWhile (fun y => y != c) := by
          rw [← ih, hr]; rfl
        simp [splitOnChar, h, hr, List.takeWhile_cons, bne, hx]

theorem splitOnChar_not_mem {c : Char} {s : List Char} (h : c ∉ s) :
    splitOnChar c s = [s] := by
  induction s with
  | nil => rfl
  | cons a t ih =>
    have ha : (a == c) = false := by
      have hne : a ≠ c := by
        rintro rfl
        exact h (List.mem_cons_self a t)
      simpa using hne
    have ht : c ∉ t := fun hm => h (List.mem_cons_of_mem a hm)
    simp [splitOnChar, ha, ih ht]

theorem splitOnChar_getElem1 (c : Char) (s : List Char) (h : c ∈ s) :
    (splitOnChar c s)[1]? =
      some (((s.dropWhile (fun x => x != c)).drop 1).takeWhile (fun x => x != c)) := by
  induction s with
  | nil => cases h
  | cons a t ih =>
    by_cases ha : (a == c) = true
    · cases hr : splitOnChar c t with
      | nil => exact absurd hr (splitOnChar_ne_nil c t)
      | cons x xs =>
        have hx : x = t.takeWhile (fun y => y != c) := by
          have h2 := splitOnChar_headD c t
          rw [hr] at h2
          simpa using h2
        have hd : List.dropWhile (fun x => x != c) (a :: t) = a :: t := by
          simp [List.dropWhile_cons, bne, ha]
        rw [hd]
        simp [splitOnChar, ha, hr, hx]
    · rw [Bool.not_eq_true] at ha
      have hm : c ∈ t := by
        rcases List.mem_cons.mp h with he | hm
        · exact absurd he.symm (by simpa using ha)
        · exact hm
      have hih := ih hm
      cases hr : splitOnChar c t with
      | nil => exact absurd hr (splitOnChar_ne_nil c t)
      | cons x xs =>
        rw [hr] at hih
        have hd : List.dropWhile (fun x => x != c) (a :: t)
            = List.dropWhile (fun x => x != c) t := by
          simp [List.dropWhile_cons, bne, ha]
        rw [hd]
        simpa [splitOnChar, ha, hr] using hih

theorem takeWhile_takeWhile_of_not_mem (a b : Char) (l : List Char)
    (h : a ∉ l.takeWhile (fun x => x != b)) :
    (l.takeWhile (fun x => x != a)).takeWhile (fun x => x != b)
      = l.takeWhile (fun x => x != b) := by
  induction l with
  | nil => simp
  | cons x xs ih =>
    simp only [List.takeWhile_cons] at h ⊢
    by_cases hxb : (x != b) = true
    · rw [if_pos hxb] at h
      simp only [List.mem_cons, not_or] at h
      obtain ⟨hax, hrest⟩ := h
      have hxa : (x != a) = true := bne_iff_ne.mpr (fun he => hax he.symm)
      rw [if_pos hxa, if_pos hxb, List.takeWhile_cons, if_pos hxb, ih hrest]
    · rw [if_neg hxb]
      by_cases hxa : (x != a) = true
      · rw [if_pos hxa, List.takeWhile_cons, if_neg hxb]
      · rw [if_neg hxa]
        simp

theorem startsWith_lt_of_seg (s : List Char)
    (h : startsWith (str "<seg") s = true) : startsWith (str "<") s = true := by
  cases s with
  | nil => exact absurd h (by decide)
  | cons a cs =>
    have h1 : ('<' == a) = true := by
      rw [show str "<seg" = '<' :: str "seg" from rfl] at h
      simp only [startsWith, Bool.and_eq_true] at h
      exact h.1
    rw [show str "<" = ['<'] from rfl]
    simp [startsWith, h1]

theorem genExamplesGo_plain (pairs : List (List Char × List Char)) :
    ∀ id_ : Nat, (∀ p ∈ pairs, startsWith (str "<") (pyStrip p.1) = false) →
      genExamplesGo id_ pairs =
        Except.ok ((pairs.map (fun p => (pyStrip p.1, pyStrip p.2))).enumFrom id_) := by
  induction pairs with
  | nil => intro id_ _; simp [genExamplesGo, List.enumFrom]
  | cons hd tl ih =>
    intro id_ hall
    obtain ⟨s, t⟩ := hd
    have hs := hall (s, t) (List.mem_cons_self _ _)
    have hpp : processPair s t = Except.ok (some (pyStrip s, pyStrip t)) := by
      simp [processPair, hs]
    have htl := ih (id_ + 1) (fun p hp => hall p (List.mem_cons_of_mem _ hp))
    simp [genExamplesGo, hpp, htl, List.enumFrom]

/-- C6: on aligned line-pair inputs in which no stripped line starts with `<`,
the extractor yields exactly one record per simultaneous line pair, each
containing the whitespace-stripped source and target text, with identifiers
exactly 0..n-1 in order. -/
theorem extractor_plain_lines_enumerated (source_file target_file : List (List Char))
    (hs : ∀ s ∈ source_file, startsWith (str "<") (pyStrip s) = false)
    (ht : ∀ t ∈ target_file, startsWith (str "<") (pyStrip t) = false) :
    generate_examples source_file target_file =
      Except.ok (((source_file.zip target_file).map
        (fun p => (pyStrip p.1, pyStrip p.2))).enum) := by
  have h := genExamplesGo_plain (source_file.zip target_file) 0 ?_
  · simpa [generate_examples, List.enum] using h
  · intro p hp
    obtain ⟨a, b⟩ := p
    exact hs a (List.of_mem_zip hp).1

/-- Witness for C6 at a concrete input: two plain source lines against one
target line yield a single record of stripped text with id 0. -/
theorem extractor_plain_lines_enumerated_witness :
    generate_examples [str " hello ", str "x"] [str "bonjour "] =
      Except.ok ((([str " hello ", str "x"].zip [str "bonjour "]).map
        (fun p => (pyStrip p.1, pyStrip p.2))).enum) :=
  extractor_plain_lines_enumerated [str " hello ", str "x"] [str "bonjour "]
    (by decide) (by decide)

/-- C4 counterexample: a `<seg` source line containing a `>` but no `<` after
it does not raise — Python's `split("<")[0]` is total — so the claim's second
disjunct is false: the pair `<seg id=1> Hello` / `<seg id=1> Bonjour` yields a
record and no indexing error. -/
theorem extractor_missing_lt_no_error_counterexample :
    ('<' ∉ ((pyStrip (str "<seg id=1> Hello")).dropWhile (fun x => x != '>')).drop 1) ∧
    startsWith (str "<seg") (pyStrip (str "<seg id=1> Hello")) = true ∧
    generate_examples [str "<seg id=1> Hello"] [str "<seg id=1> Bonjour"] =
      Except.ok [(0, (str "Hello", str "Bonjour"))] :=
  ⟨by decide, by decide, rfl⟩

/-- C4 (amended): a pair whose stripped source line starts with `<seg` but
contains no `>` raises a fatal `IndexError` from `split(">")[1]`, aborting the
generator — the pair is never silently skipped; a missing `<` after the first
`>` does not raise (see the counterexample). -/
theorem extractor_missing_gt_index_error (s t : List Char)
    (ss ts : List (List Char))
    (h1 : startsWith (str "<seg") (pyStrip s) = true)
    (h2 : '>' ∉ pyStrip s) :
    processPair s t = Except.error ExtractErr.indexError ∧
    generate_examples (s :: ss) (t :: ts) = Except.error ExtractErr.indexError := by
  have hpp : processPair s t = Except.error ExtractErr.indexError := by
    simp [processPair, startsWith_lt_of_seg _ h1, h1, splitOnChar_not_mem h2]
  exact ⟨hpp, by simp [generate_examples, List.zip_cons_cons, genExamplesGo, hpp]⟩

/-- Witness for the amended C4 at a concrete input. -/
theorem extractor_missing_gt_index_error_witness :
    processPair (str "<seg id=1 Hello") (str "anything") =
        Except.error ExtractErr.indexError ∧
    generate_examples [str "<seg id=1 Hello"] [str "anything"] =
        Except.error ExtractErr.indexError :=
  extractor_missing_gt_index_error (str "<seg id=1 Hello") (str "anything") [] []
    (by decide) (by decide)

/-- C7 counterexample: for the segment pair `<seg id=1> a>b <x</seg>` /
`<seg id=1> y </seg>` the extractor emits source text `a` — the chunk between
the first and second `>`, cut at the first `<` inside it — not the text `a>b`
lying strictly between the first `>` and the `<` that follows it, so the
universally quantified claim is false at this input. -/
theorem seg_extract_not_between_counterexample :
    generate_examples [str "<seg id=1> a>b <x</seg>"] [str "<seg id=1> y </seg>"] =
      Except.ok [(0, (str "a", str "y"))] ∧
    segTextSpec (pyStrip (str "<seg id=1> a>b <x</seg>")) = str "a>b" ∧
    str "a" ≠ str "a>b" :=
  ⟨rfl, by decide, by decide⟩

/-- C7 (amended): for an aligned pair of segment-tagged lines in which each
stripped line contains a `>` and no further `>` occurs before the `<` that
follows it (in particular for every well-formed `<seg ...>TEXT</seg>` line
whose TEXT contains neither `<` nor `>`), the extractor emits exactly the text
lying strictly between the first `>` and the following `<` of each line,
stripped of surrounding whitespace. -/
theorem seg_extract_between_gt_lt_wellformed (s t : List Char)
    (hs1 : startsWith (str "<seg") (pyStrip s) = true)
    (hs2 : '>' ∈ pyStrip s)
    (hs3 : '>' ∉ (((pyStrip s).dropWhile (fun x => x != '>')).drop 1).takeWhile
        (fun x => x != '<'))
    (ht1 : startsWith (str "<seg") (pyStrip t) = true)
    (ht2 : '>' ∈ pyStrip t)
    (ht3 : '>' ∉ (((pyStrip t).dropWhile (fun x => x != '>')).drop 1).takeWhile
        (fun x => x != '<')) :
    processPair s t =
      Except.ok (some (segTextSpec (pyStrip s), segTextSpec (pyStrip t))) := by
  have es : pyStrip ((splitOnChar '<'
        ((((pyStrip s).dropWhile (fun x => x != '>')).drop 1).takeWhile
          (fun x => x != '>'))).headD [])
      = segTextSpec (pyStrip s) := by
    rw [splitOnChar_headD, takeWhile_takeWhile_of_not_mem '>' '<' _ hs3]
    rfl
  have et : pyStrip ((splitOnChar '<'
        ((((pyStrip t).dropWhile (fun x => x != '>')).drop 1).takeWhile
          (fun x => x != '>'))).headD [])
      = segTextSpec (pyStrip t) := by
    rw [splitOnChar_headD, takeWhile_takeWhile_of_not_mem '>' '<' _ ht3]
    rfl
  simp only [processPair, startsWith_lt_of_seg _ hs1, hs1,
    splitOnChar_getElem1 '>' (pyStrip s) hs2, splitOnChar_getElem1 '>' (pyStrip t) ht2,
    if_true, es, et]

/-- Witness for the amended C7: the pair from the spec's own example yields
exactly the record `{source: "Hello", target: "Bonjour"}`. -/
theorem seg_extract_hello_bonjour_witness :
    processPair (str "<seg id=\"1\"> Hello </seg>") (str "<seg id=\"1\"> Bonjour </seg>") =
      Except.ok (some (segTextSpec (pyStrip (str "<seg id=\"1\"> Hello </seg>")),
        segTextSpec (pyStrip (str "<seg id=\"1\"> Bonjour </seg>")))) ∧
    segTextSpec (pyStrip (str "<seg id=\"1\"> Hello </seg>")) = str "Hello" ∧
    segTextSpec (pyStrip (str "<seg id=\"1\"> Bonjour </seg>")) = str "Bonjour" :=
  ⟨seg_extract_between_gt_lt_wellformed _ _ (by decide) (by decide) (by decide)
      (by decide) (by decide) (by decide),
    by decide, by decide⟩

/-- C1: the claim says `get_files` restores the original file-open primitive
unconditionally before returning, including when the driven split generation
or example generation raises; the code restores only on the success path
(line 127 of dummy_data.py has no `try`/`finally`), so after a raising
builder the open primitive is left monkey-patched — evaluated here at a
builder whose split generation raises `FileNotFoundError` and at one whose
example generator raises, both started from the original open primitive. -/
theorem get_files_open_left_patched_on_error :
    ((get_files fnfBuilder false ⟨OpenFn.original, OpenFn.original⟩).2).openPrim
        = OpenFn.monkeyPatched ∧
    ((get_files genErrBuilder false ⟨OpenFn.original, OpenFn.original⟩).2).openPrim
        = OpenFn.monkeyPatched ∧
    (get_files genErrBuilder false ⟨OpenFn.original, OpenFn.original⟩).1
        = Except.error PyExc.other :=
  ⟨rfl, rfl, rfl⟩

/-- C2: when `_split_generators(mock_dl_manager)` raises `FileNotFoundError`,
`get_expected_files` catches it and prints guidance, but the local
`generator_splits` is left unassigned, so the `for split in generator_splits`
loop raises `UnboundLocalError` — the procedure fails instead of continuing
to completion with a degraded split list. -/
theorem get_expected_files_raises_nameerror_after_fnf :
    (get_expected_files fnfBuilder ⟨OpenFn.original, OpenFn.original⟩).1
      = Except.error PyExc.nameError :=
  rfl

theorem findRealFile_none_iff (real_files : List (List Char)) (f : List Char) :
    findRealFile real_files f = none ↔
      ∀ r ∈ real_files, basename r ≠ basename f := by
  simp [findRealFile, List.head?_eq_none_iff, List.filter_eq_nil_iff]

theorem findRealFile_some (real_files : List (List Char)) (f r : List Char)
    (h : findRealFile real_files f = some r) :
    r ∈ real_files ∧ basename r = basename f := by
  have hm : r ∈ real_files.filter
      (fun filename => decide (basename filename = basename f)) := by
    apply List.mem_of_mem_head?
    rw [show (real_files.filter
      (fun filename => decide (basename filename = basename f))).head? = some r from h]
    rfl
  have h2 := List.mem_filter.mp hm
  exact ⟨h2.1, by simpa using h2.2⟩

/-- C8: during auto-generation every expected file must have a real file with
the same basename: when the matching loop succeeds every expected file has a
basename match among the real files, and when some expected file has no match
the loop raises the `Exception` whose message names the (first) unmatched
expected file. -/
theorem auto_zip_match_basename_subset (real_files files_to_create : List (List Char)) :
    ((∃ f ∈ files_to_create, ∀ r ∈ real_files, basename r ≠ basename f) →
      ∃ g ∈ files_to_create, (∀ r ∈ real_files, basename r ≠ basename g) ∧
        auto_zip_match real_files files_to_create = Except.error (errMsg g)) ∧
    (∀ res, auto_zip_match real_files files_to_create = Except.ok res →
      ∀ f ∈ files_to_create, ∃ r ∈ real_files, basename r = basename f) := by
  induction files_to_create with
  | nil =>
    constructor
    · rintro ⟨f, hf, -⟩
      exact absurd hf (List.not_mem_nil f)
    · intro res _ f hf
      exact absurd hf (List.not_mem_nil f)
  | cons f fs ih =>
    constructor
    · rintro ⟨g, hg, hnone⟩
      cases hfind : findRealFile real_files f with
      | none =>
        refine ⟨f, List.mem_cons_self f fs, (findRealFile_none_iff real_files f).mp hfind, ?_⟩
        simp [auto_zip_match, hfind]
      | some r =>
        have hgfs : g ∈ fs := by
          rcases List.mem_cons.mp hg with rfl | hm
          · have h2 := findRealFile_some real_files g r hfind
            exact absurd h2.2 (hnone r h2.1)
          · exact hm
        obtain ⟨g2, hg2, hnone2, herr⟩ := ih.1 ⟨g, hgfs, hnone⟩
        refine ⟨g2, List.mem_cons_of_mem f hg2, hnone2, ?_⟩
        simp [auto_zip_match, hfind, herr]
    · intro res hres f2 hf2
      cases hfind : findRealFile real_files f with
      | none => simp [auto_zip_match, hfind] at hres
      | some r =>
        rcases List.mem_cons.mp hf2 with rfl | hm
        · have h2 := findRealFile_some real_files f2 r hfind
          exact ⟨r, h2.1, h2.2⟩
        · rw [auto_zip_match, hfind] at hres
          cases hrec : auto_zip_match real_files fs with
          | error e => rw [hrec] at hres; cases hres
          | ok l => exact ih.2 l hrec f2 hm

/-- Witness for C8 at a concrete input: the expected file `dummy/other.txt`
has no basename match in the real file list `[data/real.txt]`, so the loop
reports an error naming it. -/
theorem auto_zip_match_basename_subset_witness :
    ∃ g ∈ [str "dummy/other.txt"],
      (∀ r ∈ [str "data/real.txt"], basename r ≠ basename g) ∧
      auto_zip_match [str "data/real.txt"] [str "dummy/other.txt"] =
        Except.error (errMsg g) :=
  (auto_zip_match_basename_subset [str "data/real.txt"] [str "dummy/other.txt"]).1
    (by decide)

/-- C10: the constructor derives the dataset name as the second-to-last
`/`-separated component of the dataset path; for a path with no `/` the
negative index raises `IndexError` before the flag validation runs — for
every combination of the remaining arguments, including ones the `assert`s
would reject. -/
theorem dummy_data_command_init_dataset_name (path : List Char) (rm az : Bool)
    (nf nl : Nat) :
    ('/' ∉ path → DummyDataCommand.init path rm az nf nl =
        Except.error InitError.indexError) ∧
    (∀ cmd, DummyDataCommand.init path rm az nf nl = Except.ok cmd →
      cmd.dataset_name =
        (splitOnChar '/' path).getD ((splitOnChar '/' path).length - 2) []) := by
  constructor
  · intro h
    rw [DummyDataCommand.init, splitOnChar_not_mem h]
    rfl
  · intro cmd hcmd
    rw [DummyDataCommand.init] at hcmd
    by_cases h2 : 2 ≤ (splitOnChar '/' path).length
    · rw [if_pos h2] at hcmd
      by_cases haz : az = true
      · rw [if_pos haz] at hcmd
        by_cases hn : nf ≠ 0 ∨ nl ≠ 0
        · rw [if_pos hn] at hcmd
          cases hcmd
          rfl
        · rw [if_neg hn] at hcmd
          cases hcmd
      · rw [if_neg haz] at hcmd
        by_cases hn : nf = 0 ∧ nl = 0
        · rw [if_pos hn] at hcmd
          cases hcmd
          rfl
        · rw [if_neg hn] at hcmd
          cases hcmd
    · rw [if_neg h2] at hcmd
      cases hcmd

/-- Witness for C10: a path with no `/`, passed together with a flag
combination (`auto_zip` with both counts zero) that the later `assert` would
reject, still fails with the `IndexError` — reached before validation. -/
theorem dummy_data_command_init_witness :
    DummyDataCommand.init (str "nodataslash") true true 0 0 =
      Except.error InitError.indexError :=
  (dummy_data_command_init_dataset_name (str "nodataslash") true true 0 0).1 (by decide)
